import Mathlib

/-!
Verification development for the accessibility-audit pipeline
(`a11y_end_to_end.py`, `main.py`, `scans/selenium_runner.py`).

The Python code is shallowly embedded: dictionaries become structures,
Python `str` operations are modelled on `List Char` (so that everything
reduces in the kernel), exceptions become `Option`/`Except`.
-/

/-! ### Python string primitives -/

/-- `str.replace` with an empty pattern: Python inserts the replacement
before every character and once more at the end
(so `"".replace("", "x") = "x"` and `"ab".replace("", "-") = "-a-b-"`). -/
def replEmpty (new : List Char) : List Char → List Char
  | [] => new
  | c :: cs => new ++ c :: replEmpty new cs

/-- `str.replace` with a non-empty pattern: scan left to right, replacing
each non-overlapping occurrence by `new`.  The `Nat` is the count of
characters of a matched occurrence still to be skipped (the scan resumes
after the whole occurrence, as in Python). -/
def replNEAux (old new : List Char) : Nat → List Char → List Char
  | _, [] => []
  | Nat.succ k, _ :: cs => replNEAux old new k cs
  | 0, c :: cs =>
    if old.isPrefixOf (c :: cs) then new ++ replNEAux old new (old.length - 1) cs
    else c :: replNEAux old new 0 cs

/-- Python `s.replace(old, new)` on character lists. -/
def pyReplace (s old new : List Char) : List Char :=
  match old with
  | [] => replEmpty new s
  | _ :: _ => replNEAux old new 0 s

/-- Python `s.replace(old, new)` on strings. -/
def pyStrReplace (s old new : String) : String :=
  ⟨pyReplace s.data old.data new.data⟩

/-- Python substring test `k in s` on character lists. -/
def containsSubstr (k : List Char) : List Char → Bool
  | [] => k.isEmpty
  | c :: cs => k.isPrefixOf (c :: cs) || containsSubstr k cs

/-- Python substring test `k in s` on strings. -/
def strContains (s k : String) : Bool := containsSubstr k.data s.data

/-- Python truthiness fallback `s or d` for strings. -/
def pyOr (s d : String) : String := if s = "" then d else s

/-- Python `str.capitalize`: first character upper-cased, rest lower-cased. -/
def pyCapitalize (s : String) : String :=
  match s.data with
  | [] => ""
  | c :: cs => ⟨c.toUpper :: cs.map Char.toLower⟩

/-- Python `str.lower` (ASCII model). -/
def pyLower (s : String) : String := ⟨s.data.map Char.toLower⟩

/-- Python `str.strip` (whitespace model). -/
def pyStrip (s : String) : String :=
  ⟨((s.data.dropWhile Char.isWhitespace).reverse.dropWhile Char.isWhitespace).reverse⟩

/-- Helper of `pySplit`, accumulating the current chunk reversed. -/
def splitAux (sep : Char) : List Char → List Char → List (List Char)
  | cur, [] => [cur.reverse]
  | cur, c :: cs => if c = sep then cur.reverse :: splitAux sep [] cs else splitAux sep (c :: cur) cs

/-- Python `s.split(sep)` for a single-character separator. -/
def pySplit (sep : Char) (s : String) : List String :=
  (splitAux sep [] s.data).map (fun l => ⟨l⟩)

/-- Python `sep.join(xs)`. -/
def joinSep (sep : String) : List String → String
  | [] => ""
  | [x] => x
  | x :: y :: xs => x ++ sep ++ joinSep sep (y :: xs)

/-- Python `"".join` of run texts of a paragraph. -/
def concatRuns : List String → String
  | [] => ""
  | r :: rs => r ++ concatRuns rs

/-- Lexicographic (code-point) order on character lists, the order Python
uses to compare strings. -/
def lexLE : List Char → List Char → Bool
  | [], _ => true
  | _ :: _, [] => false
  | a :: as, b :: bs =>
    if a.toNat < b.toNat then true
    else if b.toNat < a.toNat then false
    else lexLE as bs

/-- The Python string order `s1 <= s2` as a relation on `String`. -/
def strLEr (a b : String) : Prop := lexLE a.data b.data = true

instance : DecidableRel strLEr :=
  fun a b => inferInstanceAs (Decidable (lexLE a.data b.data = true))

theorem lexLE_total : ∀ x y : List Char, lexLE x y = true ∨ lexLE y x = true := by
  intro x
  induction x with
  | nil => intro y; exact Or.inl rfl
  | cons a as ih =>
    intro y
    cases y with
    | nil => exact Or.inr rfl
    | cons b bs =>
      simp only [lexLE]
      rcases Nat.lt_trichotomy a.toNat b.toNat with h | h | h
      · left; rw [if_pos h]
      · rw [if_neg (by omega), if_neg (by omega), if_neg (by omega), if_neg (by omega)]
        exact ih bs
      · right; rw [if_pos h]

theorem lexLE_trans : ∀ x y z : List Char,
    lexLE x y = true → lexLE y z = true → lexLE x z = true := by
  intro x
  induction x with
  | nil => intro y z _ _; rfl
  | cons a as ih =>
    intro y z hxy hyz
    cases y with
    | nil => exact absurd hxy (by simp [lexLE])
    | cons b bs =>
      cases z with
      | nil => exact absurd hyz (by simp [lexLE])
      | cons c cs =>
        simp only [lexLE] at hxy hyz ⊢
        rcases Nat.lt_trichotomy a.toNat b.toNat with h1 | h1 | h1
        · rcases Nat.lt_trichotomy b.toNat c.toNat with h2 | h2 | h2
          · rw [if_pos (by omega)]
          · rw [if_pos (by omega)]
          · rw [if_neg (by omega), if_pos h2] at hyz
            exact Bool.noConfusion hyz
        · rcases Nat.lt_trichotomy b.toNat c.toNat with h2 | h2 | h2
          · rw [if_pos (by omega)]
          · rw [if_neg (by omega), if_neg (by omega)]
            rw [if_neg (by omega), if_neg (by omega)] at hxy
            rw [if_neg (by omega), if_neg (by omega)] at hyz
            exact ih bs cs hxy hyz
          · rw [if_neg (by omega), if_pos h2] at hyz
            exact Bool.noConfusion hyz
        · rw [if_neg (by omega), if_pos h1] at hxy
          exact Bool.noConfusion hxy

theorem lexLE_antisymm : ∀ x y : List Char,
    lexLE x y = true → lexLE y x = true → x = y := by
  intro x
  induction x with
  | nil =>
    intro y _ hyx
    cases y with
    | nil => rfl
    | cons b bs => exact absurd hyx (by simp [lexLE])
  | cons a as ih =>
    intro y hxy hyx
    cases y with
    | nil => exact absurd hxy (by simp [lexLE])
    | cons b bs =>
      simp only [lexLE] at hxy hyx
      rcases Nat.lt_trichotomy a.toNat b.toNat with h | h | h
      · rw [if_neg (by omega), if_pos h] at hyx
        exact Bool.noConfusion hyx
      · rw [if_neg (by omega), if_neg (by omega)] at hxy
        rw [if_neg (by omega), if_neg (by omega)] at hyx
        rw [Char.ext (UInt32.ext h), ih bs hxy hyx]
      · rw [if_neg (by omega), if_pos h] at hxy
        exact Bool.noConfusion hxy

instance : IsTotal String strLEr := ⟨fun a b => lexLE_total a.data b.data⟩

instance : IsTrans String strLEr := ⟨fun a b c => lexLE_trans a.data b.data c.data⟩

instance : IsAntisymm String strLEr :=
  ⟨fun a b h1 h2 => by
    cases a with
    | mk d => exact congrArg String.mk (lexLE_antisymm d b.data h1 h2)⟩

/-- Python `sorted(set(l))` for strings: deduplicate, then sort
lexicographically (code-point order, as Python does). -/
def pySortedSet (l : List String) : List String :=
  List.insertionSort strLEr l.dedup

/-- `sep.join(sorted(set(l)))`. -/
def setSortJoin (sep : String) (l : List String) : String :=
  joinSep sep (pySortedSet l)

/-- Python `list.index` returning `none` instead of raising `ValueError`. -/
def pyIndex (l : List String) (x : String) : Option Nat :=
  match l with
  | [] => none
  | a :: rest => if a = x then some 0 else (pyIndex rest x).map (· + 1)

/-- One step of order-preserving de-duplication (keep first occurrence). -/
def seenStep (acc : List String) (x : String) : List String :=
  if x ∈ acc then acc else acc ++ [x]

/-- Order-preserving de-duplication, keeping first occurrences
(the iteration order of a Python dict keyed by these strings). -/
def firstSeen (l : List String) : List String :=
  l.foldl seenStep []

/-! ### Data model

Raw axe-core output: a violation object with zero or more affected
node objects.  Node-level `None` values are modelled as `""` (the code
normalizes them with `or ""` where it matters). -/

structure AxeNode where
  target : List String
  failureSummary : String
  html : String
deriving DecidableEq

structure AxeViolation where
  id : String
  impact : Option String
  help : String
  helpUrl : String
  description : String
  tags : List String
  nodes : List AxeNode
deriving DecidableEq

/-- A flat finding row as produced by `axe_to_rows` in `a11y_end_to_end.py`
(all values are strings there). -/
structure Row where
  page_url : String
  page_title : String
  violation_id : String
  impact : String
  help : String
  help_url : String
  description : String
  tags : String
  target : String
  failure_summary : String
  html : String
deriving DecidableEq

/-- A flat finding row as produced by `flatten_violations` in `main.py`
and `scans/selenium_runner.py`. -/
structure FlatRow where
  rule_id : String
  description : String
  help : String
  helpUrl : String
  impact : Option String
  tags : List String
  target : String
  html : String
  failureSummary : String
deriving DecidableEq

/-- One Lighthouse summary row, restricted to the field the aggregator
reads (`score_accessibility`; `none` models a missing key, looked up with
default `"n/a"`). -/
structure LhSummary where
  score_accessibility : Option String
deriving DecidableEq

/-! ### `a11y_end_to_end.py`: normalization -/

def IMPACT_ORDER : List String := ["minor", "moderate", "serious", "critical"]

/-- `impact_at_least` from `a11y_end_to_end.py`.  `min_impact = none` (or
the empty string) means no threshold; a missing impact fails a configured
threshold; an unknown impact or threshold raises `ValueError` in
`list.index`, caught and turned into `False`. -/
def impact_at_least (impact : Option String) (min_impact : Option String) : Bool :=
  match min_impact with
  | none => true
  | some m =>
    if m = "" then true
    else
      match impact with
      | none => false
      | some i =>
        match pyIndex IMPACT_ORDER i with
        | none => false
        | some a =>
          match pyIndex IMPACT_ORDER m with
          | none => false
          | some b => decide (b ≤ a)

/-- The violation-level fields copied onto every row (`base` in
`axe_to_rows`), with the node-specific fields empty. -/
def baseRow (v : AxeViolation) (page_url page_title : String) : Row :=
  { page_url := page_url
    page_title := page_title
    violation_id := v.id
    impact := v.impact.getD ""
    help := v.help
    help_url := v.helpUrl
    description := v.description
    tags := joinSep ";" v.tags
    target := ""
    failure_summary := ""
    html := "" }

/-- The row emitted for one affected node in `axe_to_rows`. -/
def nodeRow (v : AxeViolation) (page_url page_title : String) (node : AxeNode) : Row :=
  { baseRow v page_url page_title with
    target := joinSep " | " node.target
    failure_summary := node.failureSummary
    html := pyStrip (pyStrReplace node.html "\n" " ") }

/-- The rows `axe_to_rows` emits for one violation that passed the impact
filter: one per node, or a single row with empty node fields when the
violation has no nodes. -/
def rowsForViolation (v : AxeViolation) (page_url page_title : String) : List Row :=
  if v.nodes.isEmpty then [baseRow v page_url page_title]
  else v.nodes.map (nodeRow v page_url page_title)

/-- `axe_to_rows` from `a11y_end_to_end.py`. -/
def axe_to_rows (violations : List AxeViolation) (page_url page_title : String)
    (min_impact : Option String) : List Row :=
  violations.flatMap (fun v =>
    if impact_at_least v.impact min_impact then rowsForViolation v page_url page_title else [])

/-- `flatten_violations` from `main.py` / `scans/selenium_runner.py`:
one row per affected node (a violation with no nodes contributes nothing). -/
def flatten_violations (violations : List AxeViolation) : List FlatRow :=
  violations.flatMap (fun v => v.nodes.map (fun node =>
    { rule_id := v.id
      description := v.description
      help := v.help
      helpUrl := v.helpUrl
      impact := v.impact
      tags := v.tags
      target := joinSep " " node.target
      html := node.html
      failureSummary := node.failureSummary }))

/-! ### `a11y_end_to_end.py`: WCAG tag parsing -/

/-- The tag list `wcag_from_tags` works on: split the semicolon-joined
string, drop blank entries, strip and lower-case the rest. -/
def parseTags (tags_str : String) : List String :=
  (pySplit ';' tags_str).filterMap (fun t =>
    if pyStrip t = "" then none else some (pyLower (pyStrip t)))

/-- The priority-ordered conformance-level tags with their labels
(`level_map` together with the lookup order in `wcag_from_tags`). -/
def levelKeys : List (String × String) :=
  [("wcag22aa", "WCAG 2.2 AA"), ("wcag22a", "WCAG 2.2 A"),
   ("wcag21aa", "WCAG 2.1 AA"), ("wcag21a", "WCAG 2.1 A"),
   ("wcag2aa", "WCAG 2.0 AA"), ("wcag2a", "WCAG 2.0 A")]

/-- The regular-expression match `fullmatch(r'wcag(\d{3,4})', t)` and the
`digit.digit.digits` reformatting of the captured digits. -/
def scOfTag (t : String) : Option String :=
  if ['w', 'c', 'a', 'g'].isPrefixOf t.data then
    match t.data.drop 4 with
    | d0 :: d1 :: rest =>
      if (rest.length = 1 || rest.length = 2) && (d0 :: d1 :: rest).all Char.isDigit then
        some ⟨d0 :: '.' :: d1 :: '.' :: rest⟩
      else none
    | _ => none
  else none

/-- `wcag_from_tags` from `a11y_end_to_end.py`: success-criterion number
from the first tag shaped `wcag` + 3-4 digits, conformance level from the
first priority-ordered level tag present; `""` when absent. -/
def wcag_from_tags (tags_str : String) : String × String :=
  let tags := parseTags tags_str
  let level := ((levelKeys.find? (fun kv => decide (kv.1 ∈ tags))).map Prod.snd).getD ""
  let sc := (tags.findSome? scOfTag).getD ""
  (sc, level)

/-! ### `a11y_end_to_end.py`: cross-page aggregation (`build_issue_fields`) -/

/-- Python `lh_by_url.get(url, {})` followed by the `if lh:` presence test
(a present entry is modelled as a non-empty summary dict). -/
def lhGet (lh : List (String × LhSummary)) (url : String) : Option LhSummary :=
  (lh.find? (fun p => p.1 = url)).map Prod.snd

/-- One "related violations" line: `f"{url} → Accessibility score: {...}"`. -/
def mkRelatedLine (url : String) (s : LhSummary) : String :=
  url ++ " → Accessibility score: " ++ s.score_accessibility.getD "n/a"

/-- The contributions to `sc_set`: non-empty success criteria of the records. -/
def scList (records : List Row) : List String :=
  records.filterMap (fun r =>
    if (wcag_from_tags r.tags).1 = "" then none else some (wcag_from_tags r.tags).1)

/-- The contributions to `level_set`: non-empty conformance levels. -/
def levelList (records : List Row) : List String :=
  records.filterMap (fun r =>
    if (wcag_from_tags r.tags).2 = "" then none else some (wcag_from_tags r.tags).2)

/-- `" — ".join(filter(None, [description, help]))` for one record. -/
def combinedDesc (r : Row) : String :=
  joinSep " — " ([r.description, r.help].filter (fun s => s ≠ ""))

/-- The contributions to `issue_descriptions`. -/
def descList (records : List Row) : List String :=
  records.filterMap (fun r => if combinedDesc r = "" then none else some (combinedDesc r))

/-- The contributions to `long_descriptions` (non-empty failure summaries). -/
def longDescList (records : List Row) : List String :=
  records.filterMap (fun r => if r.failure_summary = "" then none else some r.failure_summary)

/-- `sorted(pages)`: the de-duplicated, sorted, non-empty page URLs. -/
def pagesAffectedList (records : List Row) : List String :=
  pySortedSet (records.filterMap (fun r => if r.page_url = "" then none else some r.page_url))

/-- The contributions to `html_snippets`. -/
def htmlList (records : List Row) : List String :=
  records.filterMap (fun r => if r.html = "" then none else some r.html)

/-- The contributions to `impacts` (capitalized non-empty impact labels). -/
def impactList (records : List Row) : List String :=
  records.filterMap (fun r => if r.impact = "" then none else some (pyCapitalize r.impact))

/-- The contributions to `help_urls`. -/
def helpUrlList (records : List Row) : List String :=
  records.filterMap (fun r => if r.help_url = "" then none else some r.help_url)

/-- The `related` list: the loop in `build_issue_fields` runs over the
records (not over distinct pages) and appends one line per record whose
page URL has a Lighthouse summary. -/
def relatedList (records : List Row) (lh : List (String × LhSummary)) : List String :=
  records.filterMap (fun r => (lhGet lh r.page_url).map (mkRelatedLine r.page_url))

/-- The dictionary returned by `build_issue_fields`. -/
structure IssueFields where
  SuccessCriteria : String
  SuccessCriterionLevel : String
  SuccessCriteriaDescription : String
  IssueDescription : String
  IssueLongDescription : String
  PagesAffected : String
  IssueCode : String
  IssueImplications : String
  IssueSolution : String
  RelatedViolations : String
deriving DecidableEq

/-- `build_issue_fields` from `a11y_end_to_end.py`. -/
def build_issue_fields (violation_id : String) (records : List Row)
    (lh_by_url : List (String × LhSummary)) : IssueFields :=
  let issue_description := pyOr (setSortJoin "\n\n" (descList records)) "n/a"
  let impacts := pySortedSet (impactList records)
  let related := relatedList records lh_by_url
  { SuccessCriteria := pyOr (setSortJoin ", " (scList records)) "n/a"
    SuccessCriterionLevel := pyOr (setSortJoin ", " (levelList records)) "n/a"
    SuccessCriteriaDescription := issue_description
    IssueDescription := issue_description
    IssueLongDescription := pyOr (setSortJoin "\n\n" (longDescList records)) "n/a"
    PagesAffected := pyOr (joinSep "\n" (pagesAffectedList records)) "n/a"
    IssueCode := pyOr (setSortJoin "\n\n" (htmlList records)) "n/a"
    IssueImplications :=
      if impacts.isEmpty then "n/a" else "Impact: " ++ joinSep ", " impacts
    IssueSolution := pyOr (setSortJoin "\n" (helpUrlList records)) "n/a"
    RelatedViolations := if related.isEmpty then "n/a" else joinSep "\n" related }

/-! ### `a11y_end_to_end.py`: grouping and report composition -/

/-- `by_violation[r["violation_id"]].append(r)` on a `defaultdict(list)`:
append to the group if the key exists, otherwise add a new group at the
end (Python dicts iterate in insertion order). -/
def addRow (acc : List (String × List Row)) (r : Row) : List (String × List Row) :=
  if r.violation_id ∈ acc.map Prod.fst then
    acc.map (fun p => if p.1 = r.violation_id then (p.1, p.2 ++ [r]) else p)
  else acc ++ [(r.violation_id, [r])]

/-- The grouping loop of `main` in `a11y_end_to_end.py`. -/
def groupByViolation (rows : List Row) : List (String × List Row) :=
  rows.foldl addRow []

/-- The per-rule report sections, in the iteration order of
`by_violation.items()`: one section per distinct rule identifier. -/
def buildReport (rows : List Row) (lh : List (String × LhSummary)) :
    List (String × IssueFields) :=
  (groupByViolation rows).map (fun p => (p.1, build_issue_fields p.1 p.2 lh))

/-! ### `a11y_end_to_end.py`: placeholder replacement -/

/-- `replaced = full_text; for key, val in repl.items(): replaced = replaced.replace(key, val)`. -/
def foldReplace (s : String) (repl : List (String × String)) : String :=
  repl.foldl (fun acc kv => pyStrReplace acc kv.1 kv.2) s

/-- `_replace_in_paragraph` from `a11y_end_to_end.py`: join all run texts,
substitute on the joined string, and if it changed clear every run and put
the result into the first run.  `none` models the `IndexError` raised by
`paragraph.runs[0]` on a paragraph without runs. -/
def replace_in_paragraph (runs : List String) (repl : List (String × String)) :
    Option (List String) :=
  if foldReplace (concatRuns runs) repl = concatRuns runs then some runs
  else
    match runs with
    | [] => none
    | _ :: rest => some (foldReplace (concatRuns runs) repl :: rest.map (fun _ => ""))

/-! ### Batch scan loops -/

/-- The axe loop of `main` in `a11y_end_to_end.py`: the per-URL scans run
inside one `try`/`finally` with no `except`, so the first scan error
propagates (after driver cleanup) and aborts the whole batch. -/
def axeScanLoop (scan : String → Except String (List Row)) :
    List String → Except String (List Row)
  | [] => Except.ok []
  | u :: rest =>
    match scan u with
    | Except.error e => Except.error e
    | Except.ok rows =>
      match axeScanLoop scan rest with
      | Except.error e => Except.error e
      | Except.ok more => Except.ok (rows ++ more)

/-- The loop of `main` in `scans/selenium_runner.py` (and the URL loop in
`main.py`): each URL is scanned inside its own `try`/`except`, a failing
URL is logged and contributes nothing, and the batch continues. -/
def seleniumScanLoop (scan : String → Except String (List Row)) (urls : List String) :
    List (String × List Row) :=
  urls.filterMap (fun u => (scan u).toOption.map (fun rows => (u, rows)))

/-! ### Concrete fixtures used by witnesses and counterexamples -/

/-- A violation with no affected nodes (a page-level violation). -/
def vZero : AxeViolation :=
  { id := "page-rule"
    impact := some "serious"
    help := "Help"
    helpUrl := "https://h"
    description := "Desc"
    tags := ["wcag2aa"]
    nodes := [] }

/-- One affected node. -/
def nodeX : AxeNode :=
  { target := ["#main", "img"]
    failureSummary := "Fix this"
    html := "<img>" }

/-- A violation with exactly one affected node. -/
def vOneNode : AxeViolation :=
  { id := "image-alt"
    impact := some "critical"
    help := "Images need alternate text"
    helpUrl := "https://h2"
    description := "img alt"
    tags := ["wcag2a", "wcag111"]
    nodes := [nodeX] }

/-- A violation whose raw impact field is missing. -/
def vNoImpact : AxeViolation :=
  { vZero with id := "no-impact-rule", impact := none }

/-- A concrete finding row. -/
def recA : Row :=
  { page_url := "http://a"
    page_title := "A"
    violation_id := "color-contrast"
    impact := "serious"
    help := "Fix contrast"
    help_url := "https://help/contrast"
    description := "Elements must have sufficient contrast"
    tags := "wcag2aa;wcag143"
    target := "#x"
    failure_summary := "fs"
    html := "<p>a</p>" }

/-- A second finding for the same rule on the same page (different node). -/
def recB : Row := { recA with target := "#y", html := "<p>b</p>" }

/-- A finding row whose tag list has no WCAG tags. -/
def rowNoWcag : Row := { recA with tags := "best-practice;cat.color" }

/-- A Lighthouse summary map holding a score for page `http://a`. -/
def lh0 : List (String × LhSummary) :=
  [("http://a", { score_accessibility := some "95" })]

/-- A scan function whose first URL raises and whose other URLs succeed. -/
def scanStub : String → Except String (List Row) :=
  fun u => if u = "http://one" then Except.error "network error" else Except.ok [recA]

/-! ### Helper lemmas -/

theorem pySortedSet_perm {l l2 : List String} (h : l.Perm l2) :
    pySortedSet l = pySortedSet l2 := by
  unfold pySortedSet
  exact List.eq_of_perm_of_sorted
    ((List.perm_insertionSort _ _).trans (h.dedup.trans (List.perm_insertionSort _ _).symm))
    (List.sorted_insertionSort _ _) (List.sorted_insertionSort _ _)

theorem mem_pySortedSet {x : String} {l : List String} : x ∈ pySortedSet l ↔ x ∈ l := by
  unfold pySortedSet
  rw [List.mem_insertionSort]
  exact List.mem_dedup

theorem pySortedSet_nil_iff {l : List String} : pySortedSet l = [] ↔ l = [] := by
  constructor
  · intro h
    cases hl : l with
    | nil => rfl
    | cons x xs =>
      have hx : x ∈ pySortedSet l := mem_pySortedSet.mpr (by rw [hl]; exact List.mem_cons_self x xs)
      rw [h] at hx
      exact absurd hx (List.not_mem_nil x)
  · intro h; rw [h]; rfl

theorem replNEAux_not_contains (old new : List Char) :
    ∀ s, containsSubstr old s = false → replNEAux old new 0 s = s := by
  intro s
  induction s with
  | nil => intro _; rfl
  | cons c cs ih =>
    intro h
    simp only [containsSubstr, Bool.or_eq_false_iff] at h
    simp only [replNEAux]
    rw [if_neg (by rw [h.1]; exact Bool.false_ne_true), ih h.2]

theorem containsSubstr_nil_right {k : List Char} (hk : k ≠ []) :
    containsSubstr k [] = false := by
  cases k with
  | nil => exact absurd rfl hk
  | cons a b => rfl

theorem data_eq_nil_iff {k : String} : k.data = [] ↔ k = "" := by
  constructor
  · intro h
    cases k with
    | mk d => exact congrArg String.mk h
  · intro h; rw [h]

theorem strContains_empty_key (s : String) : strContains s "" = true := by
  unfold strContains
  show containsSubstr [] s.data = true
  cases hsd : s.data with
  | nil => rfl
  | cons c cs => rfl

theorem strContains_empty_of_ne {k : String} (hk : k ≠ "") :
    strContains "" k = false := by
  unfold strContains
  show containsSubstr k.data [] = false
  exact containsSubstr_nil_right (fun h => hk (data_eq_nil_iff.mp h))

theorem pyStrReplace_not_contains {s old new : String} (h : strContains s old = false) :
    pyStrReplace s old new = s := by
  have hne : old.data ≠ [] := by
    intro hnil
    rw [data_eq_nil_iff.mp hnil, strContains_empty_key s] at h
    exact Bool.false_ne_true h.symm
  unfold pyStrReplace
  unfold strContains at h
  cases hod : old.data with
  | nil => exact absurd hod hne
  | cons o0 rest =>
    rw [hod] at h
    show String.mk (replNEAux (o0 :: rest) new.data 0 s.data) = s
    rw [replNEAux_not_contains (o0 :: rest) new.data s.data h]

theorem foldReplace_no_keys : ∀ (repl : List (String × String)) (s : String),
    (∀ kv ∈ repl, strContains s kv.1 = false) → foldReplace s repl = s := by
  intro repl
  induction repl with
  | nil => intro s _; rfl
  | cons kv rest ih =>
    intro s h
    unfold foldReplace
    rw [List.foldl_cons]
    rw [@pyStrReplace_not_contains s kv.1 kv.2 (h kv (List.mem_cons_self kv rest))]
    exact ih s (fun kv2 hm => h kv2 (List.mem_cons_of_mem kv hm))

theorem str_append_empty (s : String) : s ++ "" = s := by
  cases s with
  | mk d => exact congrArg String.mk (List.append_nil d)

theorem concatRuns_blank : ∀ l : List String, concatRuns (l.map (fun _ => "")) = "" := by
  intro l
  induction l with
  | nil => rfl
  | cons x xs ih =>
    rw [List.map_cons]
    show "" ++ concatRuns (xs.map (fun _ => "")) = ""
    rw [ih]
    rfl

theorem concatRuns_cons (r : String) (rs : List String) :
    concatRuns (r :: rs) = r ++ concatRuns rs := rfl

theorem addRow_map_fst (acc : List (String × List Row)) (r : Row) :
    (addRow acc r).map Prod.fst = seenStep (acc.map Prod.fst) r.violation_id := by
  unfold addRow seenStep
  by_cases h : r.violation_id ∈ acc.map Prod.fst
  · rw [if_pos h, if_pos h, List.map_map]
    apply List.map_congr_left
    intro p _
    by_cases hp : p.1 = r.violation_id <;> simp [Function.comp, hp]
  · rw [if_neg h, if_neg h, List.map_append]
    rfl

theorem foldl_addRow_map_fst : ∀ (rows : List Row) (acc : List (String × List Row)),
    (rows.foldl addRow acc).map Prod.fst
      = (rows.map (fun r => r.violation_id)).foldl seenStep (acc.map Prod.fst) := by
  intro rows
  induction rows with
  | nil => intro acc; rfl
  | cons r rest ih =>
    intro acc
    rw [List.foldl_cons, List.map_cons, List.foldl_cons, ih, addRow_map_fst]

theorem foldl_seenStep_nodup : ∀ (l : List String) (acc : List String), acc.Nodup →
    (l.foldl seenStep acc).Nodup := by
  intro l
  induction l with
  | nil => intro acc h; exact h
  | cons x xs ih =>
    intro acc h
    rw [List.foldl_cons]
    apply ih
    unfold seenStep
    by_cases hx : x ∈ acc
    · rw [if_pos hx]; exact h
    · rw [if_neg hx]
      simp [List.nodup_append, h, hx]

theorem mem_foldl_seenStep : ∀ (l : List String) (acc : List String) (x : String),
    x ∈ l.foldl seenStep acc ↔ x ∈ acc ∨ x ∈ l := by
  intro l
  induction l with
  | nil => intro acc x; simp
  | cons y ys ih =>
    intro acc x
    rw [List.foldl_cons, ih]
    unfold seenStep
    by_cases hy : y ∈ acc
    · rw [if_pos hy]
      constructor
      · rintro (h | h)
        · exact Or.inl h
        · exact Or.inr (List.mem_cons_of_mem y h)
      · rintro (h | h)
        · exact Or.inl h
        · rcases List.mem_cons.mp h with rfl | h2
          · exact Or.inl hy
          · exact Or.inr h2
    · rw [if_neg hy]
      simp only [List.mem_append, List.mem_singleton, List.mem_cons]
      tauto

theorem firstSeen_nodup (l : List String) : (firstSeen l).Nodup :=
  foldl_seenStep_nodup l [] List.nodup_nil

theorem mem_firstSeen {x : String} {l : List String} : x ∈ firstSeen l ↔ x ∈ l := by
  unfold firstSeen
  rw [mem_foldl_seenStep]
  simp

theorem length_filterMap_eq_countP {α β : Type} (f : α → Option β) :
    ∀ l : List α, (l.filterMap f).length = l.countP (fun a => (f a).isSome) := by
  intro l
  induction l with
  | nil => rfl
  | cons a rest ih =>
    rw [List.filterMap_cons, List.countP_cons]
    cases hf : f a with
    | none => simp [hf, ih]
    | some b => simp [hf, ih]

theorem mem_relatedList {l : String} {records : List Row} {lh : List (String × LhSummary)}
    (h : l ∈ relatedList records lh) :
    ∃ r ∈ records, ∃ s, lhGet lh r.page_url = some s ∧ l = mkRelatedLine r.page_url s := by
  unfold relatedList at h
  rw [List.mem_filterMap] at h
  obtain ⟨r, hr, hmap⟩ := h
  cases hg : lhGet lh r.page_url with
  | none => rw [hg] at hmap; exact Option.noConfusion hmap
  | some s =>
    rw [hg] at hmap
    exact ⟨r, hr, s, hg, (Option.some.inj hmap).symm⟩

theorem axe_to_rows_none (violations : List AxeViolation) (p t : String) :
    axe_to_rows violations p t none
      = violations.flatMap (fun v => rowsForViolation v p t) := by
  unfold axe_to_rows
  apply congrArg
  funext v
  rfl

theorem row_impact_of_mem {row : Row} {v : AxeViolation} {p t : String}
    (h : row ∈ rowsForViolation v p t) : row.impact = v.impact.getD "" := by
  unfold rowsForViolation at h
  by_cases he : v.nodes.isEmpty
  · rw [if_pos he] at h
    rw [List.mem_singleton] at h
    rw [h]
    rfl
  · rw [if_neg he] at h
    rw [List.mem_map] at h
    obtain ⟨node, _, hn⟩ := h
    rw [← hn]
    rfl

theorem impact_at_least_true_decode {io : Option String} {m : String} (hm : m ≠ "")
    (h : impact_at_least io (some m) = true) :
    ∃ i a b, io = some i ∧ pyIndex IMPACT_ORDER i = some a
      ∧ pyIndex IMPACT_ORDER m = some b ∧ b ≤ a := by
  simp only [impact_at_least] at h
  rw [if_neg hm] at h
  cases io with
  | none => exact Bool.noConfusion h
  | some i =>
    simp only at h
    cases ha : pyIndex IMPACT_ORDER i with
    | none => rw [ha] at h; exact Bool.noConfusion h
    | some a =>
      rw [ha] at h
      simp only at h
      cases hb : pyIndex IMPACT_ORDER m with
      | none => rw [hb] at h; exact Bool.noConfusion h
      | some b =>
        rw [hb] at h
        exact ⟨i, a, b, rfl, ha, rfl, of_decide_eq_true h⟩

theorem flatten_violations_length : ∀ violations : List AxeViolation,
    (flatten_violations violations).length
      = (violations.map (fun v => v.nodes.length)).sum := by
  intro violations
  induction violations with
  | nil => rfl
  | cons v vs ih =>
    unfold flatten_violations at ih ⊢
    rw [List.flatMap_cons, List.length_append, List.length_map, List.map_cons,
      List.sum_cons, ih]

/-! ### Claim theorems -/

/-- C1 (amended): with no minimum-impact threshold the consolidated
normalizer `axe_to_rows` emits exactly one Finding per affected node for a
violation with nodes, and exactly one Finding with empty node-specific
fields (target, failure summary, HTML) for a violation with zero nodes —
no violation is dropped; by contrast the prototype `flatten_violations`
emits one Finding per node only, so a zero-node violation contributes
nothing there. -/
theorem C1_normalization_counts (violations : List AxeViolation) (p t : String) :
    axe_to_rows violations p t none = violations.flatMap (fun v => rowsForViolation v p t)
    ∧ (∀ v : AxeViolation, v.nodes ≠ [] → (rowsForViolation v p t).length = v.nodes.length)
    ∧ (∀ v : AxeViolation, v.nodes = [] →
        rowsForViolation v p t = [baseRow v p t]
        ∧ (baseRow v p t).target = "" ∧ (baseRow v p t).failure_summary = ""
        ∧ (baseRow v p t).html = "")
    ∧ (flatten_violations violations).length
        = (violations.map (fun v => v.nodes.length)).sum := by
  refine ⟨axe_to_rows_none violations p t, ?_, ?_, flatten_violations_length violations⟩
  · intro v hv
    cases hn : v.nodes with
    | nil => exact absurd hn hv
    | cons n ns => simp [rowsForViolation, hn]
  · intro v hv
    exact ⟨by simp [rowsForViolation, hv], rfl, rfl, rfl⟩

/-- C1 witness: the general theorem evaluated on a one-node violation and
a zero-node violation. -/
theorem C1_witness :
    (rowsForViolation vOneNode "http://a" "T").length = vOneNode.nodes.length
    ∧ rowsForViolation vZero "http://a" "T" = [baseRow vZero "http://a" "T"] :=
  ⟨(C1_normalization_counts [vOneNode] "http://a" "T").2.1 vOneNode (by decide),
   ((C1_normalization_counts [vZero] "http://a" "T").2.2.1 vZero rfl).1⟩

/-- C1 counterexample: a zero-node violation is silently dropped by
`flatten_violations` (zero Findings instead of the one the claim
demands), while `axe_to_rows` emits exactly one Finding for it. -/
theorem C1_counterexample :
    flatten_violations [vZero] = []
    ∧ (axe_to_rows [vZero] "http://a" "Home" none).length = 1 := by
  constructor <;> rfl

/-- C2 (confirmed): with a threshold on the ordered impact scale, every
normalized Finding carries a recognized impact whose rank is at least the
threshold's rank; a violation with a missing or unrecognized impact
contributes no Finding; and with no threshold configured the filter
passes everything, so no Finding is dropped. -/
theorem C2_impact_filtering (vs : List AxeViolation) (p t m : String)
    (hm : m ∈ IMPACT_ORDER) :
    (∀ row ∈ axe_to_rows vs p t (some m), ∃ a b,
        pyIndex IMPACT_ORDER row.impact = some a
        ∧ pyIndex IMPACT_ORDER m = some b ∧ b ≤ a)
    ∧ (∀ v : AxeViolation,
        (v.impact = none ∨ ∀ j, v.impact = some j → pyIndex IMPACT_ORDER j = none) →
        axe_to_rows [v] p t (some m) = [])
    ∧ (∀ io : Option String, impact_at_least io none = true)
    ∧ axe_to_rows vs p t none = vs.flatMap (fun v => rowsForViolation v p t) := by
  have hm2 : m ≠ "" := by
    rintro rfl
    exact absurd hm (by decide)
  refine ⟨?_, ?_, fun io => rfl, axe_to_rows_none vs p t⟩
  · intro row hrow
    unfold axe_to_rows at hrow
    rw [List.mem_flatMap] at hrow
    obtain ⟨v, hv, hrow⟩ := hrow
    cases hc : impact_at_least v.impact (some m) with
    | false => rw [hc] at hrow; simp at hrow
    | true =>
      rw [hc] at hrow
      simp only [if_true] at hrow
      obtain ⟨i, a, b, hio, ha, hb, hba⟩ := impact_at_least_true_decode hm2 hc
      have himp := row_impact_of_mem hrow
      rw [hio] at himp
      simp only [Option.getD_some] at himp
      exact ⟨a, b, by rw [himp]; exact ha, hb, hba⟩
  · intro v hv
    have hfalse : impact_at_least v.impact (some m) = false := by
      rcases hv with h | h
      · rw [h]
        simp [impact_at_least, hm2]
      · cases hi : v.impact with
        | none => simp [impact_at_least, hm2]
        | some j =>
          have hj := h j hi
          simp [impact_at_least, hm2, hj]
    simp [axe_to_rows, hfalse]

/-- C2 witness: the theorem applied with threshold `moderate`; a violation
with a missing impact contributes nothing. -/
theorem C2_witness :
    axe_to_rows [vNoImpact] "http://a" "T" (some "moderate") = [] :=
  (C2_impact_filtering [vNoImpact] "http://a" "T" "moderate" (by decide)).2.1
    vNoImpact (Or.inl rfl)

/-- C3 (confirmed): WCAG extraction reformats the first `wcag`+3-4-digit
tag as `digit.digit.digits` ("wcag143" gives "1.4.3"), picks the
conformance level by the fixed priority order (so {"wcag2aa","wcag111"}
gives level "WCAG 2.0 AA" and criterion "1.1.1", and "wcag22aa" always
wins), and empty extraction results map to "n/a" in the Rule Aggregate
fields. -/
theorem C3_wcag_from_tags :
    wcag_from_tags "wcag143" = ("1.4.3", "")
    ∧ wcag_from_tags "wcag2aa;wcag111" = ("1.1.1", "WCAG 2.0 AA")
    ∧ wcag_from_tags "" = ("", "")
    ∧ (∀ (vid : String) (records : List Row) (lh : List (String × LhSummary)),
        (∀ r ∈ records, wcag_from_tags r.tags = ("", "")) →
        (build_issue_fields vid records lh).SuccessCriteria = "n/a"
        ∧ (build_issue_fields vid records lh).SuccessCriterionLevel = "n/a")
    ∧ (∀ ts : String, "wcag22aa" ∈ parseTags ts →
        (wcag_from_tags ts).2 = "WCAG 2.2 AA") := by
  refine ⟨by decide, by decide, by decide, ?_, ?_⟩
  · intro vid records lh hall
    have hsc : scList records = [] := by
      unfold scList
      rw [List.filterMap_eq_nil_iff]
      intro r hr
      rw [hall r hr]
      rfl
    have hlevel : levelList records = [] := by
      unfold levelList
      rw [List.filterMap_eq_nil_iff]
      intro r hr
      rw [hall r hr]
      rfl
    constructor
    · show pyOr (setSortJoin ", " (scList records)) "n/a" = "n/a"
      rw [hsc]
      rfl
    · show pyOr (setSortJoin ", " (levelList records)) "n/a" = "n/a"
      rw [hlevel]
      rfl
  · intro ts h
    have hf : levelKeys.find? (fun kv => decide (kv.1 ∈ parseTags ts))
        = some ("wcag22aa", "WCAG 2.2 AA") := by
      unfold levelKeys
      exact List.find?_cons_of_pos _ (decide_eq_true h)
    show (((levelKeys.find? (fun kv => decide (kv.1 ∈ parseTags ts))).map Prod.snd).getD "")
        = "WCAG 2.2 AA"
    rw [hf]
    rfl

/-- C3 witness: the hypotheses of the general parts discharged on a
tag list without WCAG tags and on a tag list containing `wcag22aa`. -/
theorem C3_witness :
    (build_issue_fields "r" [rowNoWcag] []).SuccessCriteria = "n/a"
    ∧ (wcag_from_tags "foo;wcag22aa").2 = "WCAG 2.2 AA" :=
  ⟨(C3_wcag_from_tags.2.2.2.1 "r" [rowNoWcag] [] (by decide)).1,
   C3_wcag_from_tags.2.2.2.2 "foo;wcag22aa" (by decide)⟩

/-- C4 (amended): when the concatenated run text of a paragraph contains a
non-empty placeholder key, replacement never raises, the final
concatenated paragraph text equals the concatenation with every key
sequentially replaced by its value, and whenever that sequential
replacement changes the text, the result is placed in the first run with
all other runs cleared.  (A residual placeholder token can remain when a
replacement value equals or reintroduces a key, in which case the runs
may also stay unmerged — see the counterexample.) -/
theorem C4_split_run_replacement (runs : List String) (repl : List (String × String))
    (h : ∃ kv ∈ repl, kv.1 ≠ "" ∧ strContains (concatRuns runs) kv.1 = true) :
    ∃ out, replace_in_paragraph runs repl = some out
      ∧ concatRuns out = foldReplace (concatRuns runs) repl
      ∧ (foldReplace (concatRuns runs) repl ≠ concatRuns runs →
          out = foldReplace (concatRuns runs) repl :: runs.tail.map (fun _ => "")) := by
  obtain ⟨kv, hkv, hne, hcont⟩ := h
  have hruns : runs ≠ [] := by
    intro hr
    rw [hr] at hcont
    rw [show concatRuns [] = "" from rfl] at hcont
    rw [strContains_empty_of_ne hne] at hcont
    exact Bool.noConfusion hcont
  unfold replace_in_paragraph
  by_cases hc : foldReplace (concatRuns runs) repl = concatRuns runs
  · rw [if_pos hc]
    exact ⟨runs, rfl, hc.symm, fun hcon => absurd hc hcon⟩
  · rw [if_neg hc]
    cases runs with
    | nil => exact absurd rfl hruns
    | cons r0 rest =>
      refine ⟨_, rfl, ?_, fun _ => rfl⟩
      rw [concatRuns_cons, concatRuns_blank, str_append_empty]

/-- C4 witness: a placeholder split across two runs is substituted, the
result landing in the first run with the second cleared. -/
theorem C4_witness :
    ∃ out, replace_in_paragraph ["«Client", "Name» here"] [("«ClientName»", "ACME")] = some out
      ∧ concatRuns out
          = foldReplace (concatRuns ["«Client", "Name» here"]) [("«ClientName»", "ACME")]
      ∧ (foldReplace (concatRuns ["«Client", "Name» here"]) [("«ClientName»", "ACME")]
            ≠ concatRuns ["«Client", "Name» here"] →
          out = foldReplace (concatRuns ["«Client", "Name» here"]) [("«ClientName»", "ACME")]
            :: (["«Client", "Name» here"] : List String).tail.map (fun _ => "")) :=
  C4_split_run_replacement ["«Client", "Name» here"] [("«ClientName»", "ACME")]
    ⟨("«ClientName»", "ACME"), by decide, by decide, by decide⟩

/-- C4 counterexample: a paragraph whose concatenated text contains the
key, replaced by an identity mapping.  The concatenation is unchanged, so
the runs are not merged (the second run keeps its text instead of being
cleared) and the placeholder token is still present afterwards —
refuting the claim's "no residual placeholder token" and "all other runs
are cleared" for this input. -/
theorem C4_counterexample :
    replace_in_paragraph ["«Client", "Name»"] [("«ClientName»", "«ClientName»")]
      = some ["«Client", "Name»"]
    ∧ strContains (concatRuns ["«Client", "Name»"]) "«ClientName»" = true := by
  constructor <;> decide

/-- C10 (amended): for replacement maps with no empty key, a zero-run
paragraph is returned unchanged with no out-of-bounds write; and whenever
no key occurs in the concatenated run text, every run is left exactly
unchanged.  (With an empty key the zero-run case does raise — see the
counterexample.) -/
theorem C10_replacement_safety (repl : List (String × String)) (runs : List String) :
    ((∀ kv ∈ repl, kv.1 ≠ "") → replace_in_paragraph [] repl = some [])
    ∧ ((∀ kv ∈ repl, strContains (concatRuns runs) kv.1 = false) →
        replace_in_paragraph runs repl = some runs) := by
  constructor
  · intro h
    unfold replace_in_paragraph
    rw [if_pos]
    apply foldReplace_no_keys
    intro kv hkv
    exact strContains_empty_of_ne (h kv hkv)
  · intro h
    unfold replace_in_paragraph
    rw [if_pos (foldReplace_no_keys repl (concatRuns runs) h)]

/-- C10 witness: the theorem evaluated on a non-empty key that occurs
nowhere in the paragraph. -/
theorem C10_witness :
    replace_in_paragraph [] [("«A»", "B")] = some []
    ∧ replace_in_paragraph ["hello"] [("«A»", "B")] = some ["hello"] :=
  ⟨(C10_replacement_safety [("«A»", "B")] []).1 (by decide),
   (C10_replacement_safety [("«A»", "B")] ["hello"]).2 (by decide)⟩

/-- C10 counterexample: with the empty string as a key, Python's
`"".replace("", v)` yields `v`, the concatenated text of a zero-run
paragraph changes, and `paragraph.runs[0]` raises `IndexError` (modelled
as `none`) — refuting the claim's zero-run safety as universally
stated. -/
theorem C10_counterexample : replace_in_paragraph [] [("", "x")] = none := by
  decide

/-- C5 (code bug): the spec requires a per-URL scan failure to be caught
so the batch continues, and `scans/selenium_runner.py` (modelled by
`seleniumScanLoop`) does exactly that — the failing first URL contributes
nothing and the second URL is still scanned.  But the axe loop of `main`
in the consolidated `a11y_end_to_end.py` (modelled by `axeScanLoop`) has
no per-URL `except`: the first scan error propagates and aborts the whole
batch, so the second URL is never scanned. -/
theorem C5_first_error_aborts_batch :
    axeScanLoop scanStub ["http://one", "http://two"] = Except.error "network error"
    ∧ seleniumScanLoop scanStub ["http://one", "http://two"] = [("http://two", [recA])] := by
  constructor <;> rfl

/-- C6 (amended): the "related violations" field holds one line per
Finding whose page URL has a Page Audit Summary (so a page appears once
per such Finding, not once per page), each line pairing that Finding's
page URL with its accessibility score; Findings of pages without a
summary contribute no line, and when no Finding's page has a summary the
field is the literal "n/a". -/
theorem C6_related_violation_lines (vid : String) (records : List Row)
    (lh : List (String × LhSummary)) :
    ((build_issue_fields vid records lh).RelatedViolations
        = if (relatedList records lh).isEmpty then "n/a"
          else joinSep "\n" (relatedList records lh))
    ∧ (relatedList records lh).length
        = records.countP (fun r => (lhGet lh r.page_url).isSome)
    ∧ (∀ l ∈ relatedList records lh,
        ∃ r ∈ records, ∃ s, lhGet lh r.page_url = some s ∧ l = mkRelatedLine r.page_url s)
    ∧ ((∀ r ∈ records, lhGet lh r.page_url = none) →
        (build_issue_fields vid records lh).RelatedViolations = "n/a") := by
  refine ⟨rfl, ?_, fun l hl => mem_relatedList hl, ?_⟩
  · have hfun : (fun r : Row => ((lhGet lh r.page_url).map (mkRelatedLine r.page_url)).isSome)
        = (fun r : Row => (lhGet lh r.page_url).isSome) := by
      funext r
      cases lhGet lh r.page_url <;> rfl
    show (records.filterMap
        (fun r => (lhGet lh r.page_url).map (mkRelatedLine r.page_url))).length = _
    rw [length_filterMap_eq_countP, hfun]
  · intro h
    have h2 : relatedList records lh = [] := by
      unfold relatedList
      rw [List.filterMap_eq_nil_iff]
      intro r hr
      rw [h r hr]
      rfl
    show (if (relatedList records lh).isEmpty then "n/a"
        else joinSep "\n" (relatedList records lh)) = "n/a"
    rw [h2]
    rfl

/-- C6 witness: no Finding's page has a summary, so the field is "n/a". -/
theorem C6_witness :
    (build_issue_fields "color-contrast" [recA] []).RelatedViolations = "n/a" :=
  (C6_related_violation_lines "color-contrast" [recA] []).2.2.2 (by decide)

/-- C6 counterexample: two Findings on the same page (the only affected
page, which has a summary) produce two identical related-violation lines,
not the exactly-one-line-per-page the claim states. -/
theorem C6_counterexample :
    (build_issue_fields "color-contrast" [recA, recB] lh0).RelatedViolations
      = "http://a → Accessibility score: 95\nhttp://a → Accessibility score: 95"
    ∧ pagesAffectedList [recA, recB] = ["http://a"] := by
  constructor <;> decide

/-- C7 (confirmed): the aggregator is a pure function (running it twice
on the same input gives the same output), and every set-then-sort based
field — success criteria, level, descriptions, pages affected, HTML
snippets, impacts, help URLs — is invariant under any permutation of the
Finding sequence. -/
theorem C7_aggregate_permutation_invariance (vid : String) (records records2 : List Row)
    (lh : List (String × LhSummary)) (hp : records.Perm records2) :
    build_issue_fields vid records lh = build_issue_fields vid records lh
    ∧ (build_issue_fields vid records lh).SuccessCriteria
        = (build_issue_fields vid records2 lh).SuccessCriteria
    ∧ (build_issue_fields vid records lh).SuccessCriterionLevel
        = (build_issue_fields vid records2 lh).SuccessCriterionLevel
    ∧ (build_issue_fields vid records lh).SuccessCriteriaDescription
        = (build_issue_fields vid records2 lh).SuccessCriteriaDescription
    ∧ (build_issue_fields vid records lh).IssueDescription
        = (build_issue_fields vid records2 lh).IssueDescription
    ∧ (build_issue_fields vid records lh).IssueLongDescription
        = (build_issue_fields vid records2 lh).IssueLongDescription
    ∧ (build_issue_fields vid records lh).PagesAffected
        = (build_issue_fields vid records2 lh).PagesAffected
    ∧ (build_issue_fields vid records lh).IssueCode
        = (build_issue_fields vid records2 lh).IssueCode
    ∧ (build_issue_fields vid records lh).IssueImplications
        = (build_issue_fields vid records2 lh).IssueImplications
    ∧ (build_issue_fields vid records lh).IssueSolution
        = (build_issue_fields vid records2 lh).IssueSolution := by
  have e1 : pySortedSet (scList records) = pySortedSet (scList records2) :=
    pySortedSet_perm (hp.filterMap _)
  have e2 : pySortedSet (levelList records) = pySortedSet (levelList records2) :=
    pySortedSet_perm (hp.filterMap _)
  have e3 : pySortedSet (descList records) = pySortedSet (descList records2) :=
    pySortedSet_perm (hp.filterMap _)
  have e4 : pySortedSet (longDescList records) = pySortedSet (longDescList records2) :=
    pySortedSet_perm (hp.filterMap _)
  have e5 : pagesAffectedList records = pagesAffectedList records2 :=
    pySortedSet_perm (hp.filterMap _)
  have e6 : pySortedSet (htmlList records) = pySortedSet (htmlList records2) :=
    pySortedSet_perm (hp.filterMap _)
  have e7 : pySortedSet (impactList records) = pySortedSet (impactList records2) :=
    pySortedSet_perm (hp.filterMap _)
  have e8 : pySortedSet (helpUrlList records) = pySortedSet (helpUrlList records2) :=
    pySortedSet_perm (hp.filterMap _)
  refine ⟨rfl, ?_, ?_, ?_, ?_, ?_, ?_, ?_, ?_, ?_⟩
  · show pyOr (joinSep ", " (pySortedSet (scList records))) "n/a" = _
    rw [e1]
    rfl
  · show pyOr (joinSep ", " (pySortedSet (levelList records))) "n/a" = _
    rw [e2]
    rfl
  · show pyOr (joinSep "\n\n" (pySortedSet (descList records))) "n/a" = _
    rw [e3]
    rfl
  · show pyOr (joinSep "\n\n" (pySortedSet (descList records))) "n/a" = _
    rw [e3]
    rfl
  · show pyOr (joinSep "\n\n" (pySortedSet (longDescList records))) "n/a" = _
    rw [e4]
    rfl
  · show pyOr (joinSep "\n" (pagesAffectedList records)) "n/a" = _
    rw [e5]
    rfl
  · show pyOr (joinSep "\n\n" (pySortedSet (htmlList records))) "n/a" = _
    rw [e6]
    rfl
  · show (if (pySortedSet (impactList records)).isEmpty then "n/a"
        else "Impact: " ++ joinSep ", " (pySortedSet (impactList records))) = _
    rw [e7]
    rfl
  · show pyOr (joinSep "\n" (pySortedSet (helpUrlList records))) "n/a" = _
    rw [e8]
    rfl

/-- C7 witness: the theorem evaluated on a two-element Finding sequence
and its swap. -/
theorem C7_witness :
    (build_issue_fields "color-contrast" [recA, recB] lh0).PagesAffected
      = (build_issue_fields "color-contrast" [recB, recA] lh0).PagesAffected :=
  (C7_aggregate_permutation_invariance "color-contrast" [recA, recB] [recB, recA] lh0
    (List.Perm.swap recB recA [])).2.2.2.2.2.2.1

/-- C8 (confirmed): the composed report has exactly one section per
distinct rule identifier (the section keys are duplicate-free and cover
exactly the identifiers occurring in the Finding sequence), and sections
appear in first-occurrence order of the identifiers — no sorting. -/
theorem C8_sections_first_seen_order (rows : List Row) (lh : List (String × LhSummary)) :
    (buildReport rows lh).map Prod.fst = firstSeen (rows.map (fun r => r.violation_id))
    ∧ (firstSeen (rows.map (fun r => r.violation_id))).Nodup
    ∧ (∀ x : String, x ∈ firstSeen (rows.map (fun r => r.violation_id))
        ↔ x ∈ rows.map (fun r => r.violation_id)) := by
  refine ⟨?_, firstSeen_nodup _, fun x => mem_firstSeen⟩
  show ((groupByViolation rows).map
      (fun p => (p.1, build_issue_fields p.1 p.2 lh))).map Prod.fst = _
  rw [List.map_map]
  have hcomp : (Prod.fst ∘ fun p : String × List Row =>
      (p.1, build_issue_fields p.1 p.2 lh)) = Prod.fst := by
    funext p
    rfl
  rw [hcomp]
  unfold groupByViolation firstSeen
  exact foldl_addRow_map_fst rows []

/-- C9 (confirmed): every page URL in the pages-affected list and every
related-violations line is derived from the `page_url` of some Finding in
the group — no derived field references a foreign page URL. -/
theorem C9_no_foreign_page_urls (vid : String) (records : List Row)
    (lh : List (String × LhSummary)) :
    ((build_issue_fields vid records lh).PagesAffected
        = pyOr (joinSep "\n" (pagesAffectedList records)) "n/a")
    ∧ (∀ u ∈ pagesAffectedList records, ∃ r ∈ records, r.page_url = u)
    ∧ (∀ l ∈ relatedList records lh, ∃ r ∈ records, ∃ s,
        lhGet lh r.page_url = some s ∧ l = mkRelatedLine r.page_url s) := by
  refine ⟨rfl, ?_, fun l hl => mem_relatedList hl⟩
  intro u hu
  have hu2 : u ∈ records.filterMap
      (fun r => if r.page_url = "" then none else some r.page_url) :=
    mem_pySortedSet.mp hu
  rw [List.mem_filterMap] at hu2
  obtain ⟨r, hr, hf⟩ := hu2
  refine ⟨r, hr, ?_⟩
  by_cases hp : r.page_url = ""
  · rw [if_pos hp] at hf
    exact Option.noConfusion hf
  · rw [if_neg hp] at hf
    exact Option.some.inj hf

/-- C9 witness: the provenance of the page URL appearing in the fields of
a concrete aggregate. -/
theorem C9_witness : ∃ r ∈ [recA, recB], r.page_url = "http://a" :=
  (C9_no_foreign_page_urls "color-contrast" [recA, recB] lh0).2.1 "http://a" (by decide)
